import Mathlib

set_option linter.unusedVariables false

/-- Python runtime values as they occur in the configuration trees of this
repository: None, booleans, integers, strings, lists and (insertion-ordered)
string-keyed dictionaries. Dictionaries are modelled as association lists in
insertion order, which matches the iteration order of Python dicts. -/
inductive Val where
  | vnone : Val
  | vbool (b : Bool) : Val
  | vint (n : Int) : Val
  | vstr (s : String) : Val
  | vlist (xs : List Val) : Val
  | vdict (xs : List (String × Val)) : Val

namespace ConfCore

/-- Dictionary lookup, mirroring Python `d[k]` / `k in d` resolution: first
entry with the given key (keys of real Python dicts are unique). -/
def lookup? : List (String × Val) → String → Option Val
  | [], _ => none
  | (k, v) :: rest, key => if k = key then some v else lookup? rest key

/-- Dictionary item assignment `d[k] = v`: replaces in place if the key is
present, otherwise appends at the end, as Python dicts do. -/
def setKey : List (String × Val) → String → Val → List (String × Val)
  | [], key, v => [(key, v)]
  | (k, v0) :: rest, key, v => if k = key then (key, v) :: rest else (k, v0) :: setKey rest key v

mutual

def valBEq : Val → Val → Bool
  | Val.vnone, Val.vnone => true
  | Val.vbool a, Val.vbool b => a == b
  | Val.vint a, Val.vint b => a == b
  | Val.vstr a, Val.vstr b => a == b
  | Val.vlist a, Val.vlist b => listBEq a b
  | Val.vdict a, Val.vdict b => dictBEq a b
  | _, _ => false

def listBEq : List Val → List Val → Bool
  | [], [] => true
  | a :: as, b :: bs => valBEq a b && listBEq as bs
  | _, _ => false

def dictBEq : List (String × Val) → List (String × Val) → Bool
  | [], [] => true
  | (k1, v1) :: as, (k2, v2) :: bs => k1 == k2 && valBEq v1 v2 && dictBEq as bs
  | _, _ => false

end

mutual

theorem valBEq_iff : ∀ a b : Val, valBEq a b = true ↔ a = b
  | a, b => by
    cases a <;> cases b <;>
      simp only [valBEq, beq_iff_eq, Val.vbool.injEq, Val.vint.injEq, Val.vstr.injEq,
        Val.vlist.injEq, Val.vdict.injEq, reduceCtorEq, iff_false, iff_true] <;>
      first
        | rfl
        | exact Bool.false_ne_true
        | exact listBEq_iff _ _
        | exact dictBEq_iff _ _

theorem listBEq_iff : ∀ a b : List Val, listBEq a b = true ↔ a = b
  | [], [] => by simp [listBEq]
  | a :: as, b :: bs => by
    simp only [listBEq, Bool.and_eq_true, List.cons.injEq]
    exact and_congr (valBEq_iff a b) (listBEq_iff as bs)
  | [], _ :: _ => by simp [listBEq]
  | _ :: _, [] => by simp [listBEq]

theorem dictBEq_iff : ∀ a b : List (String × Val), dictBEq a b = true ↔ a = b
  | [], [] => by simp [dictBEq]
  | (k1, v1) :: as, (k2, v2) :: bs => by
    simp only [dictBEq, Bool.and_eq_true, List.cons.injEq, Prod.mk.injEq, beq_iff_eq]
    rw [valBEq_iff v1 v2, dictBEq_iff as bs, and_assoc]
  | [], _ :: _ => by simp [dictBEq]
  | _ :: _, [] => by simp [dictBEq]

end

instance : DecidableEq Val := fun a b => decidable_of_iff _ (valBEq_iff a b)

instance {e a : Type} [DecidableEq e] [DecidableEq a] : DecidableEq (Except e a)
  | Except.error x, Except.error y =>
    match decEq x y with
    | isTrue h => isTrue (by rw [h])
    | isFalse h => isFalse (fun hh => h (by cases hh; rfl))
  | Except.error _, Except.ok _ => isFalse (fun hh => by cases hh)
  | Except.ok _, Except.error _ => isFalse (fun hh => by cases hh)
  | Except.ok x, Except.ok y =>
    match decEq x y with
    | isTrue h => isTrue (by rw [h])
    | isFalse h => isFalse (fun hh => h (by cases hh; rfl))

/-- Python truth value of an object: None, False, 0, empty string, empty list
and empty dict are falsy, everything else is truthy. -/
def truthy : Val → Bool
  | Val.vnone => false
  | Val.vbool b => b
  | Val.vint n => n != 0
  | Val.vstr s => s != ""
  | Val.vlist l => !l.isEmpty
  | Val.vdict d => !d.isEmpty

def isDict : Val → Bool
  | Val.vdict _ => true
  | _ => false

def isList : Val → Bool
  | Val.vlist _ => true
  | _ => false

/-- A single-quote character (used to reproduce the quoting in the error
messages of the source without a literal quote in this file). -/
def sglq : String := String.singleton (Char.ofNat 39)

/-- The message of the ValueError raised by recursive_merge for a key present
in the table dict but absent from the default dict. -/
def newKeyMsg (key : String) : String :=
  "New key " ++ sglq ++ key ++ sglq ++ " has been configured that is not in the default template config"

def keyErrorMsg (key : String) : String :=
  "KeyError: " ++ sglq ++ key ++ sglq

/-- Python `d.get(k, default)` on a value expected to be a mapping. The source
only calls this on mappings; a non-mapping would raise AttributeError in
Python and is totalised to the default here (no claim exercises that corner). -/
def pyAttrGet (v : Val) (k : String) (dflt : Val) : Val :=
  match v with
  | Val.vdict d => (lookup? d k).getD dflt
  | _ => dflt

/-- Python subscript `v[k]` with a string key: KeyError when the key is
missing from a mapping, TypeError on a non-mapping value. -/
def pySubscript (v : Val) (k : String) : Except String Val :=
  match v with
  | Val.vdict d =>
    match lookup? d k with
    | some x => Except.ok x
    | none => Except.error (keyErrorMsg k)
  | _ => Except.error "TypeError: value is not subscriptable with a string key"

/-- Python `base.extend(arg)` where base should be a list; iterable arguments
are appended element-wise (strings yield their characters, dicts their keys). -/
def pyExtend : Val → Val → Except String Val
  | Val.vlist l, Val.vlist s => Except.ok (Val.vlist (l ++ s))
  | Val.vlist l, Val.vstr s => Except.ok (Val.vlist (l ++ s.toList.map (fun c => Val.vstr (String.singleton c))))
  | Val.vlist l, Val.vdict d => Except.ok (Val.vlist (l ++ d.map (fun kv => Val.vstr kv.1)))
  | Val.vlist _, _ => Except.error "TypeError: argument is not iterable"
  | _, _ => Except.error "AttributeError: object has no attribute extend"

def charsPrefix : List Char → List Char → Bool
  | [], _ => true
  | _ :: _, [] => false
  | a :: as, b :: bs => a == b && charsPrefix as bs

/-- Contiguous-substring test on character lists, for Python string
membership. -/
def charsInfix : List Char → List Char → Bool
  | sub, [] => charsPrefix sub []
  | sub, c :: rest => charsPrefix sub (c :: rest) || charsInfix sub rest

/-- Python membership `x in container` for lists (element equality), mappings
(key membership; non-string candidates never equal a string key here) and
strings (substring test). Non-containers raise TypeError. -/
def pyContains (x : Val) (container : Val) : Except String Bool :=
  match container with
  | Val.vlist l => Except.ok (l.contains x)
  | Val.vdict d =>
    Except.ok (match x with
      | Val.vstr s => (lookup? d s).isSome
      | _ => false)
  | Val.vstr s =>
    match x with
    | Val.vstr sub => Except.ok (charsInfix sub.toList s.toList)
    | _ => Except.error "TypeError: a string is required for substring membership"
  | _ => Except.error "TypeError: argument is not iterable"

/-- Coercion of a value that the source treats as a mapping (iterates with
items, keys or values); anything else raises TypeError or AttributeError. -/
def asDict (v : Val) : Except String (List (String × Val)) :=
  match v with
  | Val.vdict d => Except.ok d
  | _ => Except.error "TypeError: a mapping is required"

/-- Second loop of recursive_merge from custom_conf_util.py: raise for the
first key of table_dict that is not a key of default_dict. -/
def extraKeyCheck (d t : List (String × Val)) : Except String Unit :=
  match t.find? (fun kv => (lookup? d kv.1).isNone) with
  | some kv => Except.error (newKeyMsg kv.1)
  | none => Except.ok ()

mutual

/-- First loop of recursive_merge from custom_conf_util.py: for every key of
default_dict, recurse when the key is in table_dict and both values are
mappings, else take the table value when present, else keep the default. -/
def rmLoop : List (String × Val) → List (String × Val) → Except String (List (String × Val))
  | [], _ => Except.ok []
  | (key, dv) :: rest, t => do
    let mv ← (match lookup? t key with
              | some tv => rmVal dv tv
              | none => pure dv)
    let ms ← rmLoop rest t
    pure ((key, mv) :: ms)

/-- Per-key rule of recursive_merge: both values mappings means a full nested
recursive_merge (merge loop, then the unknown-key check of that level); any
other combination means the table value wins. -/
def rmVal : Val → Val → Except String Val
  | Val.vdict d2, Val.vdict t2 =>
    Except.map Val.vdict (do
      let merged ← rmLoop d2 t2
      let _ ← extraKeyCheck d2 t2
      pure merged)
  | _, tv => Except.ok tv

end

/-- recursive_merge from custom_conf_util.py lines 213-233: merge the two
dicts key by key, then raise ValueError for any key of table_dict that is not
in default_dict. Exceptions are modelled with Except. -/
def recursive_merge (d t : List (String × Val)) : Except String (List (String × Val)) := do
  let merged ← rmLoop d t
  let _ ← extraKeyCheck d t
  pure merged

/-- The message of the KeyError raised by merge_test_scope for keys of
table_scope that are not in default_scope (Python formats the set of extra
keys; here they are joined in order of first appearance). -/
def unexpectedKeysMsg (ks : List String) : String :=
  "Unexpected keys in table_scope: " ++ String.intercalate ", " ks

/-- The set difference table_scope.keys() - default_scope.keys() of
merge_test_scope, as the deduplicated list of offending keys. -/
def scopeExtraKeys (t d : List (String × Val)) : List String :=
  ((t.map Prod.fst).filter (fun k => (lookup? d k).isNone)).dedup

mutual

/-- Loop of merge_test_scope from custom_conf_util.py: for every key of
default_scope, combine its value with table_scope.get(key) (absent keys give
Python None, modelled as Val.vnone). -/
def mtsLoop : List (String × Val) → List (String × Val) → Except String (List (String × Val))
  | [], _ => Except.ok []
  | (key, dv) :: rest, t => do
    let mv ← mtsVal dv ((lookup? t key).getD Val.vnone)
    let ms ← mtsLoop rest t
    pure ((key, mv) :: ms)

/-- Per-key rule of merge_test_scope: both mappings recurse (with the
unexpected-key check of that level first); both lists diff (default elements
not in the table list, None when the diff is empty); table value None keeps
the default; otherwise None when equal else the table value. -/
def mtsVal : Val → Val → Except String Val
  | Val.vdict d2, Val.vdict t2 =>
    if scopeExtraKeys t2 d2 ≠ [] then Except.error (unexpectedKeysMsg (scopeExtraKeys t2 d2))
    else Except.map Val.vdict (mtsLoop d2 t2)
  | Val.vlist dl, Val.vlist tl =>
    Except.ok (if dl.filter (fun v => !(tl.contains v)) = [] then Val.vnone
               else Val.vlist (dl.filter (fun v => !(tl.contains v))))
  | dv, Val.vnone => Except.ok dv
  | dv, tv => Except.ok (if dv = tv then Val.vnone else tv)

end

/-- merge_test_scope from custom_conf_util.py lines 159-189: raise KeyError
when table_scope has keys not in default_scope, then merge key by key. -/
def merge_test_scope (d t : List (String × Val)) : Except String (List (String × Val)) :=
  if scopeExtraKeys t d ≠ [] then Except.error (unexpectedKeysMsg (scopeExtraKeys t d))
  else mtsLoop d t

/-- merge_trigger from custom_conf_util.py: table value wins when it is not
None, else the default value. -/
def merge_trigger (default_value table_value : Val) : Val :=
  if table_value ≠ Val.vnone then table_value else default_value

/-- merge_data_platform_node: plain recursive_merge of the data-platform
subtrees. -/
def merge_data_platform_node (d t : List (String × Val)) : Except String (List (String × Val)) :=
  recursive_merge d t

/-- merge_column_info_node: plain recursive_merge of the columns-info
subtrees. -/
def merge_column_info_node (d t : List (String × Val)) : Except String (List (String × Val)) :=
  recursive_merge d t

/-- merge_synthetic_data: plain recursive_merge of the synthetic-data
subtrees. -/
def merge_synthetic_data (d t : List (String × Val)) : Except String (List (String × Val)) :=
  recursive_merge d t

/-- merge_scd_settings: plain recursive_merge of the scd-info subtrees. -/
def merge_scd_settings (d t : List (String × Val)) : Except String (List (String × Val)) :=
  recursive_merge d t

/-- merge_test_info: plain recursive_merge of the test-info subtrees. -/
def merge_test_info (d t : List (String × Val)) : Except String (List (String × Val)) :=
  recursive_merge d t

/-- apply_overlay_to_default_yaml from custom_conf_util.py lines 88-128:
dispatch each of the seven fixed top-level subtrees to its merge rule. The
source reads each subtree with .get(key, default-empty-dict) and hands it to a
merge function that iterates it as a mapping; a present non-mapping subtree
raises in Python and is an error here (asDict). -/
def apply_overlay_to_default_yaml (default_yaml table_yaml : List (String × Val)) :
    Except String (List (String × Val)) := do
  let db ← merge_data_platform_node
    (← asDict ((lookup? default_yaml "aws_redshift_sqlalchemy_db").getD (Val.vdict [])))
    (← asDict ((lookup? table_yaml "aws_redshift_sqlalchemy_db").getD (Val.vdict [])))
  let ci ← merge_column_info_node
    (← asDict ((lookup? default_yaml "columns_info").getD (Val.vdict [])))
    (← asDict ((lookup? table_yaml "columns_info").getD (Val.vdict [])))
  let sd ← merge_synthetic_data
    (← asDict ((lookup? default_yaml "synthetic_data").getD (Val.vdict [])))
    (← asDict ((lookup? table_yaml "synthetic_data").getD (Val.vdict [])))
  let si ← merge_scd_settings
    (← asDict ((lookup? default_yaml "scd_info").getD (Val.vdict [])))
    (← asDict ((lookup? table_yaml "scd_info").getD (Val.vdict [])))
  let ts ← merge_test_scope
    (← asDict ((lookup? default_yaml "test_scope").getD (Val.vdict [])))
    (← asDict ((lookup? table_yaml "test_scope").getD (Val.vdict [])))
  let ti ← merge_test_info
    (← asDict ((lookup? default_yaml "test_info").getD (Val.vdict [])))
    (← asDict ((lookup? table_yaml "test_info").getD (Val.vdict [])))
  pure [
    ("aws_redshift_sqlalchemy_db", Val.vdict db),
    ("columns_info", Val.vdict ci),
    ("synthetic_data", Val.vdict sd),
    ("scd_info", Val.vdict si),
    ("test_scope", Val.vdict ts),
    ("test_info", Val.vdict ti),
    ("trigger_counter", merge_trigger ((lookup? default_yaml "trigger_counter").getD Val.vnone)
      ((lookup? table_yaml "trigger_counter").getD Val.vnone))]

/-- The attributes of WarehouseStrategyHelper (help_warehouse_strategy.py
lines 8-31) that get_enabled_layers_and_settings_to_test reads. -/
structure StrategyCtx where
  table_name : String
  table_settings : List (String × Val)
  connection_system : Option String
  test_scope : Val
  load_strategy : Val
  scd_info : Val
  enable_scd_validations : Val

/-- The derivations of WarehouseStrategyHelper.__init__ for the attributes in
StrategyCtx: connection_system is the first key of the table settings,
test_scope and scd_info default to empty mappings, load_strategy is
test_info.get, enable_scd_validations is scd_info.get with an empty-mapping
default. -/
def mkStrategyCtx (table_name : String) (table_settings : List (String × Val)) : StrategyCtx :=
  { table_name := table_name
    table_settings := table_settings
    connection_system := table_settings.head?.map Prod.fst
    test_scope := (lookup? table_settings "test_scope").getD (Val.vdict [])
    load_strategy := pyAttrGet ((lookup? table_settings "test_info").getD (Val.vdict [])) "load_strategy" Val.vnone
    scd_info := (lookup? table_settings "scd_info").getD (Val.vdict [])
    enable_scd_validations :=
      pyAttrGet ((lookup? table_settings "scd_info").getD (Val.vdict [])) "enable_scd_validations" (Val.vdict []) }

/-- The SCD-injection block at the start of
get_enabled_layers_and_settings_to_test (help_warehouse_strategy.py lines
64-74): when load_strategy is the string scd and enable_scd_validations is
truthy, self.test_scope, given here as the association list ts, has
scd_info.get of the key validation appended to target_edwp data_validation
when that value is not None, or assigned directly when it is None. The
updated test_scope is returned (the source mutates self.test_scope in
place). -/
def inject_scd_scope (c : StrategyCtx) (ts : List (String × Val)) : Except String (List (String × Val)) :=
  let scd_validations := pyAttrGet c.scd_info "validation" Val.vnone
  if c.load_strategy = Val.vstr "scd" ∧ truthy c.enable_scd_validations = true then
    match lookup? ts "target_edwp" with
    | some (Val.vdict edwp) =>
      (match lookup? edwp "data_validation" with
       | some dv =>
         if dv ≠ Val.vnone then
           (pyExtend dv scd_validations).map
             (fun newdv => setKey ts "target_edwp" (Val.vdict (setKey edwp "data_validation" newdv)))
         else
           Except.ok (setKey ts "target_edwp" (Val.vdict (setKey edwp "data_validation" scd_validations)))
       | none => Except.error (keyErrorMsg "data_validation"))
    | some _ => Except.error "TypeError: value is not subscriptable with a string key"
    | none => Except.error (keyErrorMsg "target_edwp")
  else Except.ok ts

/-- Python split on underscores, as on character lists: the splitting of
layer.split with an underscore argument. -/
def splitOnUnderscore : List Char → List (List Char)
  | [] => [[]]
  | c :: rest =>
    match splitOnUnderscore rest with
    | [] => [[]]
    | g :: gs => if c = '_' then [] :: g :: gs else (c :: g) :: gs

/-- The per-layer connection settings lookup of
get_enabled_layers_and_settings_to_test (lines 85-92): the source layer reads
table_settings.get(connection_system, empty).get(layer, empty); target layers
read target and then the last underscore-separated component of the layer
name (layer.split of an underscore, index -1); any other layer gets an empty
mapping. -/
def layerActiveSettings (c : StrategyCtx) (layer : String) : Val :=
  let csSettings : Val :=
    match c.connection_system with
    | some cs => (lookup? c.table_settings cs).getD (Val.vdict [])
    | none => Val.vdict []
  if layer = "source" then pyAttrGet csSettings layer (Val.vdict [])
  else if charsPrefix "target".toList layer.toList then
    pyAttrGet (pyAttrGet csSettings "target" (Val.vdict []))
      (String.mk ((splitOnUnderscore layer.toList).getLastD [])) (Val.vdict [])
  else Val.vdict []

/-- Each layer scope of test_scope must itself be a mapping for the
values() iterations of lines 77 and 82; a non-mapping scope raises. -/
def dictValuesAsDicts : List (String × Val) → Except String (List (String × List (String × Val)))
  | [] => Except.ok []
  | (k, Val.vdict s) :: rest => (dictValuesAsDicts rest).map (fun r => (k, s) :: r)
  | (_, _) :: _ => Except.error "AttributeError: scope object has no attribute values"

/-- get_enabled_layers_and_settings_to_test from help_warehouse_strategy.py
lines 55-105: after the SCD injection, return the empty mapping when every
category of every layer scope is None; otherwise keep each layer whose scope
has a non-None value, pairing its non-None scope entries with the layer
connection settings. The returned pair is (enabled_layers, the test_scope
after injection), the second component standing for the mutated
self.test_scope. -/
def get_enabled_layers_and_settings_to_test (c : StrategyCtx) :
    Except String (List (String × Val) × List (String × Val)) := do
  let ts ← asDict c.test_scope
  let ts2 ← inject_scd_scope c ts
  let scopes ← dictValuesAsDicts ts2
  if scopes.all (fun ls => ls.2.all (fun kv => kv.2 = Val.vnone)) then
    pure ([], ts2)
  else
    pure (scopes.filterMap (fun ls =>
      if ls.2.all (fun kv => kv.2 = Val.vnone) then none
      else some (ls.1, Val.vdict [
        ("scope", Val.vdict (ls.2.filter (fun kv => ¬ kv.2 = Val.vnone))),
        ("layer_settings", layerActiveSettings c ls.1)])), ts2)

mutual

/-- find_failed_status from help_warehouse_strategy.py lines 152-167:
non-mappings are skipped; a mapping whose key status is the boolean False
(Python: is False) immediately returns its test_details, with a placeholder
string when absent; otherwise all values are searched recursively and the
first truthy result is returned (a falsy recursive result is discarded by the
truthiness test of line 164). -/
def find_failed_status : Val → Option Val
  | Val.vdict xs =>
    if lookup? xs "status" = some (Val.vbool false) then
      some ((lookup? xs "test_details").getD (Val.vstr "No test details available"))
    else ffsLoop xs
  | _ => none

/-- The for-loop over sub_dict.values() inside find_failed_status: the
recursive result is returned only when it is truthy. -/
def ffsLoop : List (String × Val) → Option Val
  | [] => none
  | (_, v) :: rest =>
    match find_failed_status v with
    | some r => if truthy r then some r else ffsLoop rest
    | none => ffsLoop rest

end

/-- The exceptions of process_verification_results: the two KeyErrors of the
lookup steps, the TypeError of a non-mapping table entry, and the ValueError
raised for a found failure, carrying the offending test_details. -/
inductive PvError where
  | tableNotFound (table : String) : PvError
  | layerNotFound (layer table : String) : PvError
  | notADict : PvError
  | verificationFailed (table layer : String) (details : Val) : PvError

instance : DecidableEq PvError
  | PvError.tableNotFound a, PvError.tableNotFound b =>
    match decEq a b with
    | isTrue h => isTrue (by rw [h])
    | isFalse h => isFalse (fun hh => h (by cases hh; rfl))
  | PvError.layerNotFound a c, PvError.layerNotFound b d =>
    match decEq a b, decEq c d with
    | isTrue h1, isTrue h2 => isTrue (by rw [h1, h2])
    | isFalse h1, _ => isFalse (fun hh => h1 (by cases hh; rfl))
    | _, isFalse h2 => isFalse (fun hh => h2 (by cases hh; rfl))
  | PvError.notADict, PvError.notADict => isTrue rfl
  | PvError.verificationFailed a c x, PvError.verificationFailed b d y =>
    match decEq a b, decEq c d, decEq x y with
    | isTrue h1, isTrue h2, isTrue h3 => isTrue (by rw [h1, h2, h3])
    | isFalse h1, _, _ => isFalse (fun hh => h1 (by cases hh; rfl))
    | _, isFalse h2, _ => isFalse (fun hh => h2 (by cases hh; rfl))
    | _, _, isFalse h3 => isFalse (fun hh => h3 (by cases hh; rfl))
  | PvError.tableNotFound _, PvError.layerNotFound _ _ => isFalse (fun hh => by cases hh)
  | PvError.tableNotFound _, PvError.notADict => isFalse (fun hh => by cases hh)
  | PvError.tableNotFound _, PvError.verificationFailed _ _ _ => isFalse (fun hh => by cases hh)
  | PvError.layerNotFound _ _, PvError.tableNotFound _ => isFalse (fun hh => by cases hh)
  | PvError.layerNotFound _ _, PvError.notADict => isFalse (fun hh => by cases hh)
  | PvError.layerNotFound _ _, PvError.verificationFailed _ _ _ => isFalse (fun hh => by cases hh)
  | PvError.notADict, PvError.tableNotFound _ => isFalse (fun hh => by cases hh)
  | PvError.notADict, PvError.layerNotFound _ _ => isFalse (fun hh => by cases hh)
  | PvError.notADict, PvError.verificationFailed _ _ _ => isFalse (fun hh => by cases hh)
  | PvError.verificationFailed _ _ _, PvError.tableNotFound _ => isFalse (fun hh => by cases hh)
  | PvError.verificationFailed _ _ _, PvError.layerNotFound _ _ => isFalse (fun hh => by cases hh)
  | PvError.verificationFailed _ _ _, PvError.notADict => isFalse (fun hh => by cases hh)

/-- process_verification_results from help_warehouse_strategy.py lines
135-175: KeyError when table_name is not in results or layer_name not under
the table; then find_failed_status on results of the table and layer, and a
ValueError carrying the found details when that result is truthy (the
truthiness test of line 172), otherwise a normal return. -/
def process_verification_results (results : List (String × Val)) (table_name layer_name : String) :
    Except PvError Unit :=
  match lookup? results table_name with
  | none => Except.error (PvError.tableNotFound table_name)
  | some tval =>
    match tval with
    | Val.vdict tdict =>
      match lookup? tdict layer_name with
      | none => Except.error (PvError.layerNotFound layer_name table_name)
      | some lval =>
        match find_failed_status lval with
        | some details =>
          if truthy details then Except.error (PvError.verificationFailed table_name layer_name details)
          else Except.ok ()
        | none => Except.ok ()
    | _ => Except.error PvError.notADict

/-- The two verification command kinds built by VerificationBuilder. -/
inductive VCommand where
  | validation : VCommand
  | quality : VCommand

instance : DecidableEq VCommand
  | VCommand.validation, VCommand.validation => isTrue rfl
  | VCommand.quality, VCommand.quality => isTrue rfl
  | VCommand.validation, VCommand.quality => isFalse (fun hh => by cases hh)
  | VCommand.quality, VCommand.validation => isFalse (fun hh => by cases hh)

/-- VerificationBuilder from verification_builder.py: an ordered command
list. -/
structure VerificationBuilder where
  commands : List VCommand

/-- VerificationBuilder.__init__: empty command list. -/
def VerificationBuilder.new : VerificationBuilder := ⟨[]⟩

/-- build_with_validation appends a DataValidationCommand. -/
def VerificationBuilder.build_with_validation (b : VerificationBuilder) : VerificationBuilder :=
  ⟨b.commands ++ [VCommand.validation]⟩

/-- build_with_quality appends a DataQualityCommand. -/
def VerificationBuilder.build_with_quality (b : VerificationBuilder) : VerificationBuilder :=
  ⟨b.commands ++ [VCommand.quality]⟩

/-- build returns the assembled command list. -/
def VerificationBuilder.build (b : VerificationBuilder) : List VCommand := b.commands

/-- get_builder_commands_for_data_verification from help_builder_command.py
lines 12-26: read layer_info of scope (a KeyError when absent); append the
validation command when layer_scope.get of data_validation with default False
is truthy or load_strategy equals scd; append the quality command when
layer_scope.get of data_quality with default False is truthy; return the
built list. -/
def get_builder_commands_for_data_verification (layer_info : List (String × Val)) (load_strategy : Val) :
    Except String (List VCommand) := do
  let layer_scope ← pySubscript (Val.vdict layer_info) "scope"
  let b := VerificationBuilder.new
  let b := if truthy (pyAttrGet layer_scope "data_validation" (Val.vbool false)) = true
              ∨ load_strategy = Val.vstr "scd"
           then b.build_with_validation else b
  let b := if truthy (pyAttrGet layer_scope "data_quality" (Val.vbool false)) = true
           then b.build_with_quality else b
  pure b.build

/-- The keys of the available_checks table of DataValidationCommand, in its
iteration order. -/
def availableValidationChecks : List String := ["rule_checks", "scd_checks"]

/-- The keys of the available_checks table of DataQualityCommand, in its
iteration order. -/
def availableQualityChecks : List String := ["timeliness", "duplication", "completeness", "consistency",
  "accuracy", "history_validation"]

/-- run_checks of the command classes: for each available check name in table
order, when the name is a member of checks_to_run (Python in), assign the
check result into the results mapping. checkFn abstracts the helper check
methods, which are excluded collaborators returning a status and details
contract. -/
def run_checks (checkFn : String → Val) (checks_to_run : Val) : List String → Val → Except String Val
  | [], acc => Except.ok acc
  | name :: rest, acc => do
    let isIn ← pyContains (Val.vstr name) checks_to_run
    if isIn then
      match acc with
      | Val.vdict dacc => run_checks checkFn checks_to_run rest (Val.vdict (setKey dacc name (checkFn name)))
      | _ => Except.error "TypeError: object does not support item assignment"
    else run_checks checkFn checks_to_run rest acc

/-- DataValidationCommand.run_verification from data_validation_command.py
lines 7-27: when the key data_validation is in layer_info.get of scope, make
sure results has a data_validation mapping and run the checks into it;
otherwise set results of data_validation to the no-checks string. Returns the
updated results mapping (the source mutates results in place). -/
def DataValidationCommand.run_verification (checkFn : String → Val) (layer_info : List (String × Val))
    (results : List (String × Val)) : Except String (List (String × Val)) := do
  let data_validation_scope := (lookup? layer_info "scope").getD (Val.vdict [])
  let inScope ← pyContains (Val.vstr "data_validation") data_validation_scope
  if inScope then do
    let results1 := if (lookup? results "data_validation").isSome then results
                    else setKey results "data_validation" (Val.vdict [])
    let checksToRun ← pySubscript data_validation_scope "data_validation"
    let updated ← run_checks checkFn checksToRun availableValidationChecks
      ((lookup? results1 "data_validation").getD Val.vnone)
    pure (setKey results1 "data_validation" updated)
  else
    pure (setKey results "data_validation" (Val.vstr "No data validation checks found in scope"))

/-- DataQualityCommand.run_verification from data_quality_command.py lines
6-25: the same shape as the validation command, for the data_quality category
and its six available checks. -/
def DataQualityCommand.run_verification (checkFn : String → Val) (layer_info : List (String × Val))
    (results : List (String × Val)) : Except String (List (String × Val)) := do
  let data_quality_scope := (lookup? layer_info "scope").getD (Val.vdict [])
  let inScope ← pyContains (Val.vstr "data_quality") data_quality_scope
  if inScope then do
    let results1 := if (lookup? results "data_quality").isSome then results
                    else setKey results "data_quality" (Val.vdict [])
    let checksToRun ← pySubscript data_quality_scope "data_quality"
    let updated ← run_checks checkFn checksToRun availableQualityChecks
      ((lookup? results1 "data_quality").getD Val.vnone)
    pure (setKey results1 "data_quality" updated)
  else
    pure (setKey results "data_quality" (Val.vstr "No data quality checks found in scope"))

mutual

/-- Specification-side predicate: some mapping nested anywhere in the value
(through dict values) carries a status entry equal to the boolean False. -/
def hasStatusFalse : Val → Bool
  | Val.vdict xs =>
    if lookup? xs "status" = some (Val.vbool false) then true else hsfLoop xs
  | _ => false

def hsfLoop : List (String × Val) → Bool
  | [] => false
  | (_, v) :: rest => hasStatusFalse v || hsfLoop rest

end

mutual

/-- Specification-side list of the keys of the table tree that are missing
from the default tree at a position reachable while both trees are mappings,
level by level: exactly the keys whose presence makes recursive_merge
raise. -/
def okLoop : List (String × Val) → List (String × Val) → List String
  | [], _ => []
  | (key, dv) :: rest, t =>
    (match lookup? t key with
     | some tv => okVal dv tv
     | none => []) ++ okLoop rest t

def okVal : Val → Val → List String
  | Val.vdict d2, Val.vdict t2 =>
    (t2.filter (fun kv => (lookup? d2 kv.1).isNone)).map Prod.fst ++ okLoop d2 t2
  | _, _ => []

end

/-- The offending keys of a recursive_merge call: top-level keys of t missing
from d, plus the offending keys of every aligned nested mapping pair. -/
def offendingKeys (d t : List (String × Val)) : List String :=
  (t.filter (fun kv => (lookup? d kv.1).isNone)).map Prod.fst ++ okLoop d t

mutual

/-- Specification-side predicate: some mapping nested anywhere in the value
(through dict values and list elements) contains the given key. -/
def valHasKeyDeep : Val → String → Bool
  | Val.vdict xs, k => (lookup? xs k).isSome || vhkLoop xs k
  | Val.vlist xs, k => vhkList xs k
  | _, _ => false

def vhkLoop : List (String × Val) → String → Bool
  | [], _ => false
  | (_, v) :: rest, k => valHasKeyDeep v k || vhkLoop rest k

def vhkList : List Val → String → Bool
  | [], _ => false
  | v :: rest, k => valHasKeyDeep v k || vhkList rest k

end

/-- Keys of an association list are pairwise distinct (true of every real
Python dict; association lists are more general, so merge theorems that
re-process their own output assume it). -/
def keysNodup : List (String × Val) → Bool
  | [] => true
  | (k, _) :: rest => (lookup? rest k).isNone && keysNodup rest

mutual

/-- Every mapping nested in the value (through dict values) has pairwise
distinct keys. -/
def valNodupB : Val → Bool
  | Val.vdict d => keysNodup d && dnLoop d
  | _ => true

def dnLoop : List (String × Val) → Bool
  | [] => true
  | (_, v) :: rest => valNodupB v && dnLoop rest

end

/-- Every mapping nested in the association list, and the list itself, has
pairwise distinct keys. -/
def dictNodupB (d : List (String × Val)) : Bool := keysNodup d && dnLoop d

/-- The default scope of the worked scope-diff example (spec section 8,
claim C1). -/
def exampleDefaultScope : List (String × Val) :=
  [("a", Val.vint 1), ("b", Val.vlist [Val.vint 1, Val.vint 2]),
   ("c", Val.vdict [("x", Val.vint 10)]), ("d", Val.vnone)]

/-- The table scope of the worked scope-diff example. -/
def exampleTableScope : List (String × Val) :=
  [("a", Val.vint 2), ("b", Val.vlist [Val.vint 1]),
   ("c", Val.vdict [("x", Val.vint 10)]), ("d", Val.vnone)]

/-- The expected merge of the worked scope-diff example. -/
def exampleMergedScope : List (String × Val) :=
  [("a", Val.vint 2), ("b", Val.vlist [Val.vint 2]),
   ("c", Val.vdict [("x", Val.vnone)]), ("d", Val.vnone)]

/-- The aggregation example of claim C3: a passing check followed by a failing
check with details X. -/
def exampleAggResults : List (String × Val) :=
  [("t1", Val.vdict [("layer1", Val.vdict [("cat", Val.vdict [
    ("chk1", Val.vdict [("status", Val.vbool true)]),
    ("chk2", Val.vdict [("status", Val.vbool false), ("test_details", Val.vstr "X")])])])])]

/-- A layer tree with one failing check whose test_details is the empty
string, a falsy value. -/
def falsyDetailsLayer : Val :=
  Val.vdict [("chk", Val.vdict [("status", Val.vbool false), ("test_details", Val.vstr "")])]

/-- A layer tree whose statuses are the strings Failed, Skipped and Warning
and the integer zero: none of them is the boolean False. -/
def stringStatusResults : List (String × Val) :=
  [("t", Val.vdict [("l", Val.vdict [("cat", Val.vdict [
    ("c1", Val.vdict [("status", Val.vstr "Failed")]),
    ("c2", Val.vdict [("status", Val.vstr "Skipped")]),
    ("c3", Val.vdict [("status", Val.vstr "Warning")]),
    ("c4", Val.vdict [("status", Val.vint 0)])])])])]

/-- Table settings of the SCD-injection scenario of claim C4: load strategy
scd, SCD validations enabled, scope data_validation starting as the
rule_checks list. -/
def scdExampleSettings : List (String × Val) :=
  [("aws_redshift_sqlalchemy_db", Val.vdict [("target", Val.vdict [("edwp", Val.vdict [("schema", Val.vstr "s")])])]),
   ("scd_info", Val.vdict [("enable_scd_validations", Val.vbool true), ("validation", Val.vlist [Val.vstr "scd_checks"])]),
   ("test_info", Val.vdict [("load_strategy", Val.vstr "scd")]),
   ("test_scope", Val.vdict [("target_edwp", Val.vdict [("data_validation", Val.vlist [Val.vstr "rule_checks"])])])]

def scdExampleCtx : StrategyCtx := mkStrategyCtx "orders" scdExampleSettings

/-- Table settings whose merged test_scope is entirely None but whose SCD
injection enables the target_edwp layer (claim C7 counterexample). -/
def allNoneScdSettings : List (String × Val) :=
  [("aws_redshift_sqlalchemy_db", Val.vdict [("target", Val.vdict [("edwp", Val.vdict [("schema", Val.vstr "s")])])]),
   ("scd_info", Val.vdict [("enable_scd_validations", Val.vbool true), ("validation", Val.vlist [Val.vstr "scd_checks"])]),
   ("test_info", Val.vdict [("load_strategy", Val.vstr "scd")]),
   ("test_scope", Val.vdict [("target_edwp", Val.vdict [("data_validation", Val.vnone)])])]

def allNoneScdCtx : StrategyCtx := mkStrategyCtx "orders" allNoneScdSettings

theorem bind_ok_iff {e a b : Type} {x : Except e a} {f : a → Except e b} {r : b} :
    (x >>= f) = Except.ok r ↔ ∃ v, x = Except.ok v ∧ f v = Except.ok r := by
  cases x <;> simp [Bind.bind, Except.bind]

theorem bind_error_iff {e a b : Type} {x : Except e a} {f : a → Except e b} {err : e} :
    (x >>= f) = Except.error err ↔
      x = Except.error err ∨ ∃ v, x = Except.ok v ∧ f v = Except.error err := by
  cases x <;> simp [Bind.bind, Except.bind]

theorem map_ok_iff {e a b : Type} {x : Except e a} {g : a → b} {r : b} :
    Except.map g x = Except.ok r ↔ ∃ v, x = Except.ok v ∧ g v = r := by
  cases x <;> simp [Except.map, eq_comm]

theorem map_error_iff {e a b : Type} {x : Except e a} {g : a → b} {err : e} :
    Except.map g x = Except.error err ↔ x = Except.error err := by
  cases x <;> simp [Except.map]

theorem pure_ok_iff {e a : Type} {v r : a} :
    (pure v : Except e a) = Except.ok r ↔ v = r := by
  simp [pure, Except.pure]

theorem pure_ne_error {e a : Type} {v : a} {err : e} :
    (pure v : Except e a) ≠ Except.error err := by
  simp [pure, Except.pure]

theorem ffsAux : ∀ n : Nat,
    (∀ v : Val, sizeOf v < n → hasStatusFalse v = false → find_failed_status v = none)
    ∧ (∀ xs : List (String × Val), sizeOf xs < n → hsfLoop xs = false → ffsLoop xs = none) := by
  intro n
  induction n with
  | zero =>
    constructor
    · intro v hv; exact absurd hv (Nat.not_lt_zero _)
    · intro xs hxs; exact absurd hxs (Nat.not_lt_zero _)
  | succ n ih =>
    constructor
    · intro v hv hsf
      cases v with
      | vdict xs =>
        rw [hasStatusFalse] at hsf
        rw [find_failed_status]
        split at hsf
        · exact absurd hsf (by simp)
        · rename_i hst
          rw [if_neg hst]
          have hx : sizeOf xs < n := by
            have := Val.vdict.sizeOf_spec xs
            omega
          exact ih.2 xs hx hsf
      | vnone => rfl
      | vbool b => rfl
      | vint m => rfl
      | vstr s => rfl
      | vlist l => rfl
    · intro xs hxs hsf
      cases xs with
      | nil => rfl
      | cons p rest =>
        obtain ⟨k, v⟩ := p
        rw [hsfLoop] at hsf
        rw [Bool.or_eq_false_iff] at hsf
        have hsz : sizeOf v < n ∧ sizeOf rest < n := by
          have h1 : sizeOf ((k, v) :: rest) = 1 + (1 + sizeOf k + sizeOf v) + sizeOf rest := by
            simp [Prod.mk.sizeOf_spec]
          constructor <;> omega
        have h1 := ih.1 v hsz.1 hsf.1
        rw [ffsLoop, h1]
        exact ih.2 rest hsz.2 hsf.2

/-- A value without a nested status-False mapping is never reported by
find_failed_status. -/
theorem find_failed_status_none (v : Val) (h : hasStatusFalse v = false) :
    find_failed_status v = none :=
  (ffsAux (sizeOf v + 1)).1 v (Nat.lt_succ_self _) h

/-- Conversely, a reported failure implies a nested status-False mapping. -/
theorem find_failed_status_some (v : Val) (r : Val) (h : find_failed_status v = some r) :
    hasStatusFalse v = true := by
  by_contra hb
  rw [Bool.not_eq_true] at hb
  rw [find_failed_status_none v hb] at h
  cases h

theorem pvr_ok_of_no_status_false (results : List (String × Val)) (tn ln : String)
    (tdict : List (String × Val)) (lval : Val)
    (h1 : lookup? results tn = some (Val.vdict tdict)) (h2 : lookup? tdict ln = some lval)
    (h3 : hasStatusFalse lval = false) :
    process_verification_results results tn ln = Except.ok () := by
  unfold process_verification_results
  rw [h1]
  dsimp only
  rw [h2]
  dsimp only
  rw [find_failed_status_none lval h3]

theorem pvr_error_implies_status_false (results : List (String × Val)) (tn ln t2 l2 : String)
    (details : Val)
    (h : process_verification_results results tn ln = Except.error (PvError.verificationFailed t2 l2 details)) :
    ∃ tdict lval, lookup? results tn = some (Val.vdict tdict) ∧ lookup? tdict ln = some lval ∧
      hasStatusFalse lval = true := by
  unfold process_verification_results at h
  split at h
  · exact absurd h (by simp)
  · rename_i tval htv
    split at h
    · rename_i tdict
      split at h
      · exact absurd h (by simp)
      · rename_i lval hlv
        split at h
        · rename_i details2 hff
          split at h
          · exact ⟨tdict, lval, htv, hlv, find_failed_status_some lval details2 hff⟩
          · exact absurd h (by simp)
        · exact absurd h (by simp)
    · exact absurd h (by simp)

/-- Claim C3 counterexample: the claim says process_verification_results
raises if and only if some nested sub-mapping has status False, but a failing
node whose test_details is falsy (here the empty string) is discarded by the
truthiness test of the source and the call returns normally. -/
theorem process_verification_results_falsy_details_cex :
    hasStatusFalse falsyDetailsLayer = true ∧
    process_verification_results [("t1", Val.vdict [("layer1", falsyDetailsLayer)])] "t1" "layer1"
      = Except.ok () := by
  constructor
  · decide
  · decide

/-- Claim C3 (amended): process_verification_results raises a verification
failure only if some nested sub-mapping under the table and layer has status
equal to the boolean False; when no nested sub-mapping has status False the
call returns normally; the raise carries the first truthy test_details found
in mapping iteration order, depth first, with a placeholder string when
test_details is absent; in particular the worked example raises carrying X. A
failing node whose test_details is falsy does not trigger the raise. -/
theorem process_verification_results_amended :
    (∀ (results : List (String × Val)) (tn ln : String) (tdict : List (String × Val)) (lval : Val),
       lookup? results tn = some (Val.vdict tdict) → lookup? tdict ln = some lval →
       hasStatusFalse lval = false → process_verification_results results tn ln = Except.ok ())
  ∧ (∀ (results : List (String × Val)) (tn ln t2 l2 : String) (details : Val),
       process_verification_results results tn ln = Except.error (PvError.verificationFailed t2 l2 details) →
       ∃ tdict lval, lookup? results tn = some (Val.vdict tdict) ∧ lookup? tdict ln = some lval ∧
         hasStatusFalse lval = true)
  ∧ process_verification_results exampleAggResults "t1" "layer1"
      = Except.error (PvError.verificationFailed "t1" "layer1" (Val.vstr "X"))
  ∧ process_verification_results [("t", Val.vdict [("l", Val.vdict [("status", Val.vbool false)])])] "t" "l"
      = Except.error (PvError.verificationFailed "t" "l" (Val.vstr "No test details available")) :=
  ⟨pvr_ok_of_no_status_false, pvr_error_implies_status_false, by decide, by decide⟩

/-- Claim C10: only a leaf whose status value is the boolean False can cause
process_verification_results to raise a verification failure; a tree whose
statuses are the strings Failed, Skipped and Warning or any other non-False
value passes, and non-mapping values met during the walk are skipped without
inspection. -/
theorem find_failed_status_only_bool_false :
    (∀ (results : List (String × Val)) (tn ln t2 l2 : String) (details : Val),
       process_verification_results results tn ln = Except.error (PvError.verificationFailed t2 l2 details) →
       ∃ tdict lval, lookup? results tn = some (Val.vdict tdict) ∧ lookup? tdict ln = some lval ∧
         hasStatusFalse lval = true)
  ∧ (∀ v : Val, isDict v = false → find_failed_status v = none)
  ∧ process_verification_results stringStatusResults "t" "l" = Except.ok () := by
  refine ⟨pvr_error_implies_status_false, ?_, by decide⟩
  intro v hv
  cases v <;> first | rfl | exact absurd hv (by simp [isDict])

/-- Claim C9: whenever apply_overlay_to_default_yaml returns without raising,
the top-level key list of the result is exactly the seven fixed keys, in
order; with both inputs empty the six subtree keys map to empty mappings and
trigger_counter to None. -/
theorem apply_overlay_fixed_keys :
    (∀ (dy ty r : List (String × Val)),
       apply_overlay_to_default_yaml dy ty = Except.ok r →
       r.map Prod.fst = ["aws_redshift_sqlalchemy_db", "columns_info", "synthetic_data",
         "scd_info", "test_scope", "test_info", "trigger_counter"])
  ∧ apply_overlay_to_default_yaml [] [] = Except.ok [
      ("aws_redshift_sqlalchemy_db", Val.vdict []), ("columns_info", Val.vdict []),
      ("synthetic_data", Val.vdict []), ("scd_info", Val.vdict []), ("test_scope", Val.vdict []),
      ("test_info", Val.vdict []), ("trigger_counter", Val.vnone)] := by
  constructor
  · intro dy ty r h
    unfold apply_overlay_to_default_yaml at h
    simp only [bind_ok_iff, pure_ok_iff] at h
    obtain ⟨a1, -, a2, -, db, -, b1, -, b2, -, ci, -, c1, -, c2, -, sd, -,
      d1, -, d2, -, si, -, e1, -, e2, -, ts, -, f1, -, f2, -, ti, -, hr⟩ := h
    subst hr
    rfl
  · decide

/-- Claim C4: with load_strategy scd and enable_scd_validations truthy, the
scope resolution injects the SCD validations into target_edwp
data_validation before further processing: appended when the existing value
is a list, assigned directly when it is None; in particular starting from the
rule_checks list with validation the scd_checks list, the post-resolution
scope holds rule_checks followed by scd_checks, also in the scope of the
returned enabled layer. -/
theorem scd_injection_thm :
    (∀ (c : StrategyCtx) (ts edwp : List (String × Val)) (dv : Val) (s : List Val),
       c.load_strategy = Val.vstr "scd" → truthy c.enable_scd_validations = true →
       lookup? ts "target_edwp" = some (Val.vdict edwp) →
       lookup? edwp "data_validation" = some dv →
       pyAttrGet c.scd_info "validation" Val.vnone = Val.vlist s →
       ((∀ l, dv = Val.vlist l →
          inject_scd_scope c ts = Except.ok (setKey ts "target_edwp"
            (Val.vdict (setKey edwp "data_validation" (Val.vlist (l ++ s))))))
        ∧ (dv = Val.vnone →
          inject_scd_scope c ts = Except.ok (setKey ts "target_edwp"
            (Val.vdict (setKey edwp "data_validation" (Val.vlist s)))))))
  ∧ inject_scd_scope scdExampleCtx
      [("target_edwp", Val.vdict [("data_validation", Val.vlist [Val.vstr "rule_checks"])])]
      = Except.ok [("target_edwp", Val.vdict [("data_validation",
          Val.vlist [Val.vstr "rule_checks", Val.vstr "scd_checks"])])]
  ∧ get_enabled_layers_and_settings_to_test scdExampleCtx
      = Except.ok ([("target_edwp", Val.vdict [
          ("scope", Val.vdict [("data_validation", Val.vlist [Val.vstr "rule_checks", Val.vstr "scd_checks"])]),
          ("layer_settings", Val.vdict [("schema", Val.vstr "s")])])],
        [("target_edwp", Val.vdict [("data_validation",
          Val.vlist [Val.vstr "rule_checks", Val.vstr "scd_checks"])])]) := by
  refine ⟨?_, by decide, by decide⟩
  intro c ts edwp dv s h1 h2 h3 h4 h5
  constructor
  · intro l hl
    subst hl
    simp only [inject_scd_scope, h1, h2, h3, h4, h5, if_pos, and_self, ite_true,
      pyExtend, Except.map]
    simp
  · intro hn
    subst hn
    simp only [inject_scd_scope, h1, h2, h3, h4, h5, if_pos, and_self, ite_true]
    simp

theorem dictValuesAsDicts_allNone : ∀ ts : List (String × Val),
    (∀ p ∈ ts, ∃ s, p.2 = Val.vdict s ∧ ∀ q ∈ s, q.2 = Val.vnone) →
    ∃ scopes, dictValuesAsDicts ts = Except.ok scopes ∧
      scopes.all (fun ls => ls.2.all (fun kv => kv.2 = Val.vnone)) = true := by
  intro ts
  induction ts with
  | nil => intro h; exact ⟨[], rfl, rfl⟩
  | cons p rest ih =>
    intro h
    obtain ⟨k, v⟩ := p
    obtain ⟨s, hs, hall⟩ := h (k, v) (List.mem_cons_self _ _)
    dsimp at hs
    subst hs
    obtain ⟨scopes, h1, h2⟩ := ih (fun q hq => h q (List.mem_cons_of_mem _ hq))
    refine ⟨(k, s) :: scopes, ?_, ?_⟩
    · rw [dictValuesAsDicts, h1]
      rfl
    · rw [List.all_cons, h2, Bool.and_true]
      simp only [List.all_eq_true, decide_eq_true_eq]
      exact hall

theorem inject_scd_scope_noop (c : StrategyCtx) (ts : List (String × Val))
    (h : ¬ (c.load_strategy = Val.vstr "scd" ∧ truthy c.enable_scd_validations = true)) :
    inject_scd_scope c ts = Except.ok ts := by
  unfold inject_scd_scope
  rw [if_neg h]

/-- Claim C7 counterexample: a merged test_scope whose only category is None,
but with load_strategy scd and SCD validations enabled, so the injection
turns the category into the scd_checks list and the call returns a non-empty
enabled-layers mapping instead of the empty one the claim demands. -/
theorem get_enabled_layers_all_none_scd_cex :
    allNoneScdCtx.test_scope = Val.vdict [("target_edwp", Val.vdict [("data_validation", Val.vnone)])]
  ∧ get_enabled_layers_and_settings_to_test allNoneScdCtx
      = Except.ok ([("target_edwp", Val.vdict [
          ("scope", Val.vdict [("data_validation", Val.vlist [Val.vstr "scd_checks"])]),
          ("layer_settings", Val.vdict [("schema", Val.vstr "s")])])],
        [("target_edwp", Val.vdict [("data_validation", Val.vlist [Val.vstr "scd_checks"])])]) := by
  constructor
  · decide
  · decide

/-- Claim C7 (amended): when every check category under every layer of the
merged test_scope is None and no SCD injection applies (the load strategy is
not scd or SCD validations are not enabled), the call returns the empty
enabled-layers mapping. -/
theorem get_enabled_layers_all_none_amended :
    ∀ (c : StrategyCtx) (ts : List (String × Val)),
      c.test_scope = Val.vdict ts →
      ¬ (c.load_strategy = Val.vstr "scd" ∧ truthy c.enable_scd_validations = true) →
      (∀ p ∈ ts, ∃ s, p.2 = Val.vdict s ∧ ∀ q ∈ s, q.2 = Val.vnone) →
      get_enabled_layers_and_settings_to_test c = Except.ok ([], ts) := by
  intro c ts h1 h2 h3
  obtain ⟨scopes, hdva, hall⟩ := dictValuesAsDicts_allNone ts h3
  unfold get_enabled_layers_and_settings_to_test
  rw [h1]
  simp only [asDict, Bind.bind, Except.bind, inject_scd_scope_noop c ts h2, hdva, hall,
    if_true, ite_true]
  rfl

/-- Claim C7 witness: a concrete all-None scope with truncate_load gives the
empty enabled-layers mapping. -/
theorem get_enabled_layers_all_none_witness :
    get_enabled_layers_and_settings_to_test
      (mkStrategyCtx "orders" [("aws_redshift_sqlalchemy_db", Val.vdict []),
        ("test_info", Val.vdict [("load_strategy", Val.vstr "truncate_load")]),
        ("test_scope", Val.vdict [("source", Val.vdict [("data_quality", Val.vnone)])])])
      = Except.ok ([], [("source", Val.vdict [("data_quality", Val.vnone)])]) := by
  apply get_enabled_layers_all_none_amended
  · decide
  · decide
  · intro p hp
    fin_cases hp
    exact ⟨[("data_quality", Val.vnone)], rfl, by intro q hq; fin_cases hq; rfl⟩

/-- Claim C5 counterexample: the claim says the command list holds the
data-validation command exactly when data_validation is in the layer scope or
the load strategy is scd; here data_validation is a key of the scope (with
value None) and the strategy is truncate_load, yet the built command list is
empty, because the source tests the truthiness of the value, not key
membership. -/
theorem builder_commands_none_value_cex :
    (lookup? [("data_validation", Val.vnone)] "data_validation").isSome = true
  ∧ get_builder_commands_for_data_verification
      [("scope", Val.vdict [("data_validation", Val.vnone)]), ("layer_settings", Val.vdict [])]
      (Val.vstr "truncate_load") = Except.ok [] := by
  constructor
  · decide
  · decide

/-- Claim C5 (amended): the built command list holds the data-validation
command exactly when the scope value of data_validation is truthy or the load
strategy is scd, holds the data-quality command exactly when the scope value
of data_quality is truthy, and when both are present validation precedes
quality; two concrete builds illustrate the ordering and the scd override. -/
theorem builder_commands_amended :
    (∀ (layer_info scope : List (String × Val)) (load : Val) (cmds : List VCommand),
       lookup? layer_info "scope" = some (Val.vdict scope) →
       get_builder_commands_for_data_verification layer_info load = Except.ok cmds →
       ((VCommand.validation ∈ cmds ↔
          (truthy (pyAttrGet (Val.vdict scope) "data_validation" (Val.vbool false)) = true
            ∨ load = Val.vstr "scd"))
        ∧ (VCommand.quality ∈ cmds ↔
            truthy (pyAttrGet (Val.vdict scope) "data_quality" (Val.vbool false)) = true)
        ∧ (VCommand.validation ∈ cmds → VCommand.quality ∈ cmds →
            cmds = [VCommand.validation, VCommand.quality])))
  ∧ get_builder_commands_for_data_verification
      [("scope", Val.vdict [("data_validation", Val.vlist [Val.vstr "rule_checks"]),
        ("data_quality", Val.vlist [Val.vstr "accuracy"])])]
      (Val.vstr "truncate_load") = Except.ok [VCommand.validation, VCommand.quality]
  ∧ get_builder_commands_for_data_verification [("scope", Val.vdict [])] (Val.vstr "scd")
      = Except.ok [VCommand.validation] := by
  refine ⟨?_, by decide, by decide⟩
  intro layer_info scope load cmds hsc h
  simp only [get_builder_commands_for_data_verification, pySubscript, hsc, Bind.bind,
    Except.bind, pure_ok_iff] at h
  subst h
  by_cases hV : truthy (pyAttrGet (Val.vdict scope) "data_validation" (Val.vbool false)) = true
      ∨ load = Val.vstr "scd" <;>
  by_cases hQ : truthy (pyAttrGet (Val.vdict scope) "data_quality" (Val.vbool false)) = true <;>
    simp [hV, hQ, VerificationBuilder.new, VerificationBuilder.build_with_validation,
      VerificationBuilder.build_with_quality, VerificationBuilder.build]

theorem run_checks_list_ok (checkFn : String → Val) (names : List Val) :
    ∀ (avail : List String) (acc : List (String × Val)),
    ∃ d, run_checks checkFn (Val.vlist names) avail (Val.vdict acc) = Except.ok (Val.vdict d) := by
  intro avail
  induction avail with
  | nil => intro acc; exact ⟨acc, rfl⟩
  | cons name rest ih =>
    intro acc
    rw [run_checks]
    simp only [pyContains, Bind.bind, Except.bind]
    by_cases hc : names.contains (Val.vstr name) = true
    · rw [hc]
      simp only [if_true, ite_true]
      exact ih (setKey acc name (checkFn name))
    · rw [Bool.not_eq_true] at hc
      rw [hc]
      simp only [Bool.false_eq_true, if_false, ite_false]
      exact ih acc

/-- Claim C8 counterexample: the claim says a layer whose scope has no
matching checks for the category gets the no-checks string; here the scope
holds data_validation with the single name bogus, which matches no available
validation check, yet the command stores an empty mapping, not the string
(the string is only written when the category key is absent). -/
theorem run_verification_unmatched_checks_cex :
    availableValidationChecks.contains "bogus" = false
  ∧ DataValidationCommand.run_verification (fun _ => Val.vnone)
      [("scope", Val.vdict [("data_validation", Val.vlist [Val.vstr "bogus"])])] []
      = Except.ok [("data_validation", Val.vdict [])] := by
  constructor
  · decide
  · decide

/-- Claim C8 (amended): when the category key is absent from the layer scope,
the command writes the string of the form No category checks found in scope
as the value of results at that category; when the key is present with a list
of check names, the value written is a mapping (empty when no name matches an
available check), not the string. -/
theorem run_verification_no_scope_amended :
    (∀ (checkFn : String → Val) (layer_info results : List (String × Val))
       (scope : List (String × Val)),
       (lookup? layer_info "scope").getD (Val.vdict []) = Val.vdict scope →
       lookup? scope "data_validation" = none →
       DataValidationCommand.run_verification checkFn layer_info results
         = Except.ok (setKey results "data_validation" (Val.vstr "No data validation checks found in scope")))
  ∧ (∀ (checkFn : String → Val) (layer_info results : List (String × Val))
       (scope : List (String × Val)),
       (lookup? layer_info "scope").getD (Val.vdict []) = Val.vdict scope →
       lookup? scope "data_quality" = none →
       DataQualityCommand.run_verification checkFn layer_info results
         = Except.ok (setKey results "data_quality" (Val.vstr "No data quality checks found in scope")))
  ∧ (∀ (checkFn : String → Val) (layer_info : List (String × Val))
       (scope : List (String × Val)) (names : List Val),
       (lookup? layer_info "scope").getD (Val.vdict []) = Val.vdict scope →
       lookup? scope "data_validation" = some (Val.vlist names) →
       ∃ d, DataValidationCommand.run_verification checkFn layer_info []
         = Except.ok [("data_validation", Val.vdict d)]) := by
  refine ⟨?_, ?_, ?_⟩
  · intro checkFn layer_info results scope hsc hnone
    unfold DataValidationCommand.run_verification
    rw [hsc]
    simp only [pyContains, hnone, Option.isSome_none, Bind.bind, Except.bind, ite_false,
      Bool.false_eq_true, if_false]
    rfl
  · intro checkFn layer_info results scope hsc hnone
    unfold DataQualityCommand.run_verification
    rw [hsc]
    simp only [pyContains, hnone, Option.isSome_none, Bind.bind, Except.bind, ite_false,
      Bool.false_eq_true, if_false]
    rfl
  · intro checkFn layer_info scope names hsc hsome
    unfold DataValidationCommand.run_verification
    rw [hsc]
    obtain ⟨d, hd⟩ := run_checks_list_ok checkFn names availableValidationChecks []
    simp only [pyContains, hsome, Option.isSome_some, Bind.bind, Except.bind, if_true, ite_true,
      lookup?, setKey, pySubscript, Option.getD_some, hd, pure_ok_iff]
    exact ⟨d, by simp [lookup?, setKey, hsome, hd, pySubscript, Bind.bind, Except.bind]⟩

theorem mtsLoop_lookup : ∀ (d t m : List (String × Val)), mtsLoop d t = Except.ok m →
    ∀ (k : String) (dv : Val), lookup? d k = some dv →
    ∃ mv, mtsVal dv ((lookup? t k).getD Val.vnone) = Except.ok mv ∧ lookup? m k = some mv := by
  intro d
  induction d with
  | nil =>
    intro t m h k dv hk
    exact absurd hk (by rw [lookup?]; exact Option.noConfusion)
  | cons p rest ih =>
    obtain ⟨key, dv0⟩ := p
    intro t m h k dv hk
    rw [mtsLoop] at h
    rw [bind_ok_iff] at h
    obtain ⟨mv0, hmv0, h⟩ := h
    rw [bind_ok_iff] at h
    obtain ⟨ms, hms, h⟩ := h
    rw [pure_ok_iff] at h
    subst h
    rw [lookup?] at hk
    by_cases hkey : key = k
    · rw [if_pos hkey] at hk
      injection hk with hdv
      subst hdv
      subst hkey
      exact ⟨mv0, hmv0, by rw [lookup?, if_pos rfl]⟩
    · rw [if_neg hkey] at hk
      obtain ⟨mv, h1, h2⟩ := ih t ms hms k dv hk
      exact ⟨mv, h1, by rw [lookup?, if_neg hkey]; exact h2⟩

theorem merge_test_scope_ok_loop (d t m : List (String × Val))
    (h : merge_test_scope d t = Except.ok m) : mtsLoop d t = Except.ok m := by
  unfold merge_test_scope at h
  split at h
  · exact absurd h (by simp)
  · exact h

/-- Claim C1: merge_test_scope implements the per-key scope-diff rules. For
every key of the default scope the merged mapping holds the value of the
per-key rule mtsVal applied to the default value and the table value (Python
get, absent meaning None); mtsVal recurses when both are mappings, diffs when
both are lists collapsing an empty diff to None, keeps the default when the
table value is None, and otherwise yields None on equality and the table
value on difference; the worked example evaluates as the claim states. -/
theorem merge_test_scope_scope_diff_rules :
    (∀ (d t m : List (String × Val)), merge_test_scope d t = Except.ok m →
       ∀ (k : String) (dv : Val), lookup? d k = some dv →
       ∃ mv, mtsVal dv ((lookup? t k).getD Val.vnone) = Except.ok mv ∧ lookup? m k = some mv)
  ∧ (∀ d2 t2 : List (String × Val),
       mtsVal (Val.vdict d2) (Val.vdict t2) = Except.map Val.vdict (merge_test_scope d2 t2))
  ∧ (∀ dl tl : List Val,
       mtsVal (Val.vlist dl) (Val.vlist tl) = Except.ok
         (if dl.filter (fun v => !(tl.contains v)) = [] then Val.vnone
          else Val.vlist (dl.filter (fun v => !(tl.contains v)))))
  ∧ (∀ dv : Val, mtsVal dv Val.vnone = Except.ok dv)
  ∧ (∀ dv tv : Val, ¬(isDict dv = true ∧ isDict tv = true) →
       ¬(isList dv = true ∧ isList tv = true) → tv ≠ Val.vnone →
       mtsVal dv tv = Except.ok (if dv = tv then Val.vnone else tv))
  ∧ merge_test_scope exampleDefaultScope exampleTableScope = Except.ok exampleMergedScope := by
  refine ⟨?_, ?_, ?_, ?_, ?_, by decide⟩
  · intro d t m h
    exact mtsLoop_lookup d t m (merge_test_scope_ok_loop d t m h)
  · intro d2 t2
    rw [mtsVal, merge_test_scope]
    split
    · rfl
    · rfl
  · intro dl tl
    rfl
  · intro dv
    cases dv <;> rfl
  · intro dv tv h1 h2 h3
    cases dv <;> cases tv <;> simp_all [isDict, isList, mtsVal]

theorem filter_extra_nil {d t : List (String × Val)}
    (h : t.find? (fun kv => (lookup? d kv.1).isNone) = none) :
    (t.filter (fun kv => (lookup? d kv.1).isNone)).map Prod.fst = [] := by
  rw [List.find?_eq_none] at h
  rw [List.map_eq_nil_iff, List.filter_eq_nil_iff]
  intro kv hkv
  exact h kv hkv

theorem extraKeyCheck_ok_filter {d t : List (String × Val)} {u : Unit}
    (h : extraKeyCheck d t = Except.ok u) :
    (t.filter (fun kv => (lookup? d kv.1).isNone)).map Prod.fst = [] := by
  unfold extraKeyCheck at h
  split at h
  · exact absurd h (by simp)
  · rename_i hfind
    exact filter_extra_nil hfind

theorem extraKeyCheck_error_mem {d t : List (String × Val)} {e : String}
    (h : extraKeyCheck d t = Except.error e) :
    ∃ k, k ∈ (t.filter (fun kv => (lookup? d kv.1).isNone)).map Prod.fst ∧ e = newKeyMsg k := by
  unfold extraKeyCheck at h
  split at h
  · rename_i kv hfind
    injection h with he
    have hp := List.find?_some hfind
    refine ⟨kv.1, ?_, he.symm⟩
    rw [List.mem_map]
    refine ⟨kv, ?_, rfl⟩
    rw [List.mem_filter]
    exact ⟨List.mem_of_find?_eq_some hfind, hp⟩
  · exact absurd h (by simp)

theorem c2Aux : ∀ n : Nat, ∀ d : List (String × Val), sizeOf d < n → ∀ t : List (String × Val),
    ((∀ m, rmLoop d t = Except.ok m → okLoop d t = [])
     ∧ (∀ e, rmLoop d t = Except.error e → ∃ k, k ∈ okLoop d t ∧ e = newKeyMsg k)) := by
  intro n
  induction n with
  | zero => intro d hd; exact absurd hd (Nat.not_lt_zero _)
  | succ n ih =>
    intro d hd t
    cases d with
    | nil =>
      constructor
      · intro m h; rfl
      · intro e h
        rw [rmLoop] at h
        exact Except.noConfusion h
    | cons p rest =>
      obtain ⟨key, dv0⟩ := p
      have hsz : sizeOf dv0 < n ∧ sizeOf rest < n := by
        have h1 : sizeOf ((key, dv0) :: rest) = 1 + (1 + sizeOf key + sizeOf dv0) + sizeOf rest := by
          simp [Prod.mk.sizeOf_spec]
        omega
      have valOk : ∀ tv mv, rmVal dv0 tv = Except.ok mv → okVal dv0 tv = [] := by
        intro tv mv hv
        cases dv0 with
        | vdict d2 =>
          cases tv with
          | vdict t2 =>
            simp only [rmVal] at hv
            rw [map_ok_iff] at hv
            obtain ⟨mm, hmm, -⟩ := hv
            rw [bind_ok_iff] at hmm
            obtain ⟨m1, hm1, hmm⟩ := hmm
            rw [bind_ok_iff] at hmm
            obtain ⟨u, hu, -⟩ := hmm
            have hsz2 : sizeOf d2 < n := by
              have h2 : sizeOf (Val.vdict d2) = 1 + sizeOf d2 := by simp
              omega
            have hloop := (ih d2 hsz2 t2).1 m1 hm1
            simp only [okVal]
            rw [hloop, List.append_nil]
            exact extraKeyCheck_ok_filter hu
          | vnone => rfl
          | vbool b => rfl
          | vint i => rfl
          | vstr s => rfl
          | vlist l => rfl
        | vnone => cases tv <;> rfl
        | vbool b => cases tv <;> rfl
        | vint i => cases tv <;> rfl
        | vstr s => cases tv <;> rfl
        | vlist l => cases tv <;> rfl
      have valErr : ∀ tv e, rmVal dv0 tv = Except.error e →
          ∃ k, k ∈ okVal dv0 tv ∧ e = newKeyMsg k := by
        intro tv e hv
        cases dv0 with
        | vdict d2 =>
          cases tv with
          | vdict t2 =>
            simp only [rmVal] at hv
            rw [map_error_iff] at hv
            rw [bind_error_iff] at hv
            have hsz2 : sizeOf d2 < n := by
              have h2 : sizeOf (Val.vdict d2) = 1 + sizeOf d2 := by simp
              omega
            rcases hv with hv | ⟨m1, hm1, hv⟩
            · obtain ⟨k, hk, he⟩ := (ih d2 hsz2 t2).2 e hv
              refine ⟨k, ?_, he⟩
              simp only [okVal]
              exact List.mem_append_right _ hk
            · rw [bind_error_iff] at hv
              rcases hv with hv | ⟨u, -, hv⟩
              · obtain ⟨k, hk, he⟩ := extraKeyCheck_error_mem hv
                refine ⟨k, ?_, he⟩
                simp only [okVal]
                exact List.mem_append_left _ hk
              · exact absurd hv pure_ne_error
          | vnone => exact Except.noConfusion hv
          | vbool b => exact Except.noConfusion hv
          | vint i => exact Except.noConfusion hv
          | vstr s => exact Except.noConfusion hv
          | vlist l => exact Except.noConfusion hv
        | vnone => cases tv <;> exact Except.noConfusion hv
        | vbool b => cases tv <;> exact Except.noConfusion hv
        | vint i => cases tv <;> exact Except.noConfusion hv
        | vstr s => cases tv <;> exact Except.noConfusion hv
        | vlist l => cases tv <;> exact Except.noConfusion hv
      constructor
      · intro m h
        rw [rmLoop] at h
        rw [bind_ok_iff] at h
        obtain ⟨mv0, hmv0, h⟩ := h
        rw [bind_ok_iff] at h
        obtain ⟨ms, hms, -⟩ := h
        rw [okLoop]
        have hrest := (ih rest hsz.2 t).1 ms hms
        rw [hrest]
        cases hlk : lookup? t key with
        | none => rfl
        | some tv =>
          rw [hlk] at hmv0
          dsimp only at hmv0 ⊢
          rw [valOk tv mv0 hmv0]
          rfl
      · intro e h
        rw [rmLoop] at h
        rw [bind_error_iff] at h
        rcases h with h | ⟨mv0, hmv0, h⟩
        · cases hlk : lookup? t key with
          | none =>
            rw [hlk] at h
            dsimp only at h
            exact absurd h pure_ne_error
          | some tv =>
            rw [hlk] at h
            dsimp only at h
            obtain ⟨k, hk, he⟩ := valErr tv e h
            refine ⟨k, ?_, he⟩
            rw [okLoop, hlk]
            dsimp only
            exact List.mem_append_left _ hk
        · rw [bind_error_iff] at h
          rcases h with h | ⟨ms, -, h⟩
          · obtain ⟨k, hk, he⟩ := (ih rest hsz.2 t).2 e h
            refine ⟨k, ?_, he⟩
            rw [okLoop]
            exact List.mem_append_right _ hk
          · exact absurd h pure_ne_error

theorem recursive_merge_offending_ok (d t : List (String × Val)) (m : List (String × Val))
    (h : recursive_merge d t = Except.ok m) : offendingKeys d t = [] := by
  unfold recursive_merge at h
  rw [bind_ok_iff] at h
  obtain ⟨m1, hm1, h⟩ := h
  rw [bind_ok_iff] at h
  obtain ⟨u, hu, -⟩ := h
  unfold offendingKeys
  rw [(c2Aux (sizeOf d + 1) d (Nat.lt_succ_self _) t).1 m1 hm1, List.append_nil]
  exact extraKeyCheck_ok_filter hu

theorem recursive_merge_offending_error (d t : List (String × Val)) (e : String)
    (h : recursive_merge d t = Except.error e) :
    ∃ k, k ∈ offendingKeys d t ∧ e = newKeyMsg k := by
  unfold recursive_merge at h
  rw [bind_error_iff] at h
  rcases h with h | ⟨m1, hm1, h⟩
  · obtain ⟨k, hk, he⟩ := (c2Aux (sizeOf d + 1) d (Nat.lt_succ_self _) t).2 e h
    exact ⟨k, List.mem_append_right _ hk, he⟩
  · rw [bind_error_iff] at h
    rcases h with h | ⟨u, -, h⟩
    · obtain ⟨k, hk, he⟩ := extraKeyCheck_error_mem h
      exact ⟨k, List.mem_append_left _ hk, he⟩
    · exact absurd h pure_ne_error

/-- Claim C2 counterexample: the table tree contains the key x at depth two
and the default tree contains x nowhere, yet recursive_merge returns without
raising, because the default value aligned with the nested mapping is the
scalar one: the table value silently wins and its inner keys are never
validated. -/
theorem recursive_merge_hidden_key_cex :
    valHasKeyDeep (Val.vdict [("a", Val.vdict [("x", Val.vint 2)])]) "x" = true
  ∧ valHasKeyDeep (Val.vdict [("a", Val.vint 1)]) "x" = false
  ∧ recursive_merge [("a", Val.vint 1)] [("a", Val.vdict [("x", Val.vint 2)])]
      = Except.ok [("a", Val.vdict [("x", Val.vint 2)])] := by
  refine ⟨by decide, by decide, by decide⟩

/-- Claim C2 (amended): recursive_merge raises exactly when the table tree
has a key absent from the default tree at a position reachable while both
trees are mappings (an aligned extra key, as listed by offendingKeys), and
the raised message names such an offending key; an extra key sitting below a
non-mapping default value is not detected. The spec example with key extra
raises naming extra. -/
theorem recursive_merge_strict_key_amended :
    (∀ d t m, recursive_merge d t = Except.ok m → offendingKeys d t = [])
  ∧ (∀ d t e, recursive_merge d t = Except.error e → ∃ k, k ∈ offendingKeys d t ∧ e = newKeyMsg k)
  ∧ (∀ d t, offendingKeys d t ≠ [] → ∃ e, recursive_merge d t = Except.error e)
  ∧ recursive_merge [("a", Val.vdict [("b", Val.vint 1)])]
      [("a", Val.vdict [("b", Val.vint 2)]), ("extra", Val.vint 3)]
      = Except.error (newKeyMsg "extra") := by
  refine ⟨recursive_merge_offending_ok, recursive_merge_offending_error, ?_, by decide⟩
  intro d t hne
  cases hr : recursive_merge d t with
  | ok m => exact absurd (recursive_merge_offending_ok d t m hr) hne
  | error e => exact ⟨e, rfl⟩

theorem rmVal_dict_eq (d2 t2 : List (String × Val)) :
    rmVal (Val.vdict d2) (Val.vdict t2) = Except.map Val.vdict (recursive_merge d2 t2) := rfl

theorem valNodup_dict (d : List (String × Val)) : valNodupB (Val.vdict d) = dictNodupB d := rfl

theorem dictNodupB_cons {key : String} {dv0 : Val} {rest : List (String × Val)}
    (h : dictNodupB ((key, dv0) :: rest) = true) :
    lookup? rest key = none ∧ valNodupB dv0 = true ∧ dictNodupB rest = true := by
  unfold dictNodupB keysNodup dnLoop at h
  rw [Bool.and_eq_true, Bool.and_eq_true, Bool.and_eq_true] at h
  refine ⟨Option.isNone_iff_eq_none.mp h.1.1, h.2.1, ?_⟩
  unfold dictNodupB
  rw [Bool.and_eq_true]
  exact ⟨h.1.2, h.2.2⟩

theorem lookup?_isSome_of_mem_keys : ∀ (d : List (String × Val)) (k : String),
    k ∈ d.map Prod.fst → (lookup? d k).isSome = true := by
  intro d
  induction d with
  | nil => intro k hk; simp at hk
  | cons p rest ih =>
    intro k hk
    obtain ⟨k1, v1⟩ := p
    rw [List.map_cons, List.mem_cons] at hk
    rw [lookup?]
    by_cases h1 : k1 = k
    · rw [if_pos h1]; rfl
    · rw [if_neg h1]
      rcases hk with hk | hk
      · exact absurd hk.symm h1
      · exact ih k hk

theorem rmLoop_keys : ∀ (d t m : List (String × Val)), rmLoop d t = Except.ok m →
    m.map Prod.fst = d.map Prod.fst := by
  intro d
  induction d with
  | nil =>
    intro t m h
    rw [rmLoop] at h
    injection h with h
    subst h
    rfl
  | cons p rest ih =>
    obtain ⟨key, dv0⟩ := p
    intro t m h
    rw [rmLoop] at h
    rw [bind_ok_iff] at h
    obtain ⟨mv0, -, h⟩ := h
    rw [bind_ok_iff] at h
    obtain ⟨ms, hms, h⟩ := h
    rw [pure_ok_iff] at h
    subst h
    rw [List.map_cons, List.map_cons, ih t ms hms]

theorem rmLoop_skip : ∀ (d : List (String × Val)) (k : String) (x : Val) (t : List (String × Val)),
    lookup? d k = none → rmLoop d ((k, x) :: t) = rmLoop d t := by
  intro d k x t
  induction d with
  | nil => intro h; rfl
  | cons p rest ih =>
    obtain ⟨k1, dv1⟩ := p
    intro h
    rw [lookup?] at h
    have h1 : ¬ k1 = k := by
      intro hh
      rw [if_pos hh] at h
      exact Option.noConfusion h
    rw [if_neg h1] at h
    have hl : lookup? ((k, x) :: t) k1 = lookup? t k1 := by
      rw [lookup?, if_neg (fun hh => h1 hh.symm)]
    rw [rmLoop, rmLoop, hl, ih h]

theorem extraKeyCheck_ok_of {d t : List (String × Val)}
    (h : ∀ kv ∈ t, (lookup? d kv.1).isSome = true) : extraKeyCheck d t = Except.ok () := by
  have hf : t.find? (fun kv => (lookup? d kv.1).isNone) = none := by
    rw [List.find?_eq_none]
    intro kv hkv hno
    have hs := h kv hkv
    rw [Option.isNone_iff_eq_none] at hno
    rw [hno] at hs
    exact Bool.noConfusion hs
  unfold extraKeyCheck
  rw [hf]

theorem c6Aux : ∀ n : Nat,
    (∀ d : List (String × Val), sizeOf d < n → ∀ t m, dictNodupB d = true →
       rmLoop d t = Except.ok m → rmLoop d m = Except.ok m)
  ∧ (∀ d : List (String × Val), sizeOf d < n → dictNodupB d = true →
       rmLoop d d = Except.ok d)
  ∧ (∀ dv : Val, sizeOf dv < n → valNodupB dv = true → ∀ tv mv,
       rmVal dv tv = Except.ok mv → rmVal dv mv = Except.ok mv)
  ∧ (∀ dv : Val, sizeOf dv < n → valNodupB dv = true → rmVal dv dv = Except.ok dv) := by
  intro n
  induction n with
  | zero =>
    refine ⟨?_, ?_, ?_, ?_⟩ <;> (intro x hx; exact absurd hx (Nat.not_lt_zero _))
  | succ n ih =>
    have pMergeDerived : ∀ d2 t2 m2, sizeOf d2 < n → dictNodupB d2 = true →
        recursive_merge d2 t2 = Except.ok m2 → recursive_merge d2 m2 = Except.ok m2 := by
      intro d2 t2 m2 hs hn h
      unfold recursive_merge at h ⊢
      rw [bind_ok_iff] at h
      obtain ⟨m1, hm1, h⟩ := h
      rw [bind_ok_iff] at h
      obtain ⟨u, hu, hp⟩ := h
      rw [pure_ok_iff] at hp
      subst hp
      rw [bind_ok_iff]
      refine ⟨m1, ih.1 d2 hs t2 m1 hn hm1, ?_⟩
      rw [bind_ok_iff]
      refine ⟨(), extraKeyCheck_ok_of ?_, by rw [pure_ok_iff]⟩
      intro kv hkv
      have hmem : kv.1 ∈ m1.map Prod.fst := List.mem_map.mpr ⟨kv, hkv, rfl⟩
      rw [rmLoop_keys d2 t2 m1 hm1] at hmem
      exact lookup?_isSome_of_mem_keys d2 kv.1 hmem
    have pSelfDerived : ∀ d2, sizeOf d2 < n → dictNodupB d2 = true →
        recursive_merge d2 d2 = Except.ok d2 := by
      intro d2 hs hn
      unfold recursive_merge
      rw [bind_ok_iff]
      refine ⟨d2, ih.2.1 d2 hs hn, ?_⟩
      rw [bind_ok_iff]
      refine ⟨(), extraKeyCheck_ok_of ?_, by rw [pure_ok_iff]⟩
      intro kv hkv
      exact lookup?_isSome_of_mem_keys d2 kv.1 (List.mem_map.mpr ⟨kv, hkv, rfl⟩)
    have pVal : ∀ dv : Val, sizeOf dv < n + 1 → valNodupB dv = true → ∀ tv mv,
        rmVal dv tv = Except.ok mv → rmVal dv mv = Except.ok mv := by
      intro dv hdv hnd tv mv hv
      cases dv with
      | vdict d2 =>
        have hs2 : sizeOf d2 < n := by
          have h2 : sizeOf (Val.vdict d2) = 1 + sizeOf d2 := by simp
          omega
        cases tv with
        | vdict t2 =>
          rw [rmVal_dict_eq] at hv
          rw [map_ok_iff] at hv
          obtain ⟨m2, hm2, hmv⟩ := hv
          subst hmv
          rw [rmVal_dict_eq, map_ok_iff]
          exact ⟨m2, pMergeDerived d2 t2 m2 hs2 ((valNodup_dict d2) ▸ hnd) hm2, rfl⟩
        | vnone => simp only [rmVal] at hv; injection hv with hh; subst hh; rfl
        | vbool b => simp only [rmVal] at hv; injection hv with hh; subst hh; rfl
        | vint i => simp only [rmVal] at hv; injection hv with hh; subst hh; rfl
        | vstr s => simp only [rmVal] at hv; injection hv with hh; subst hh; rfl
        | vlist l => simp only [rmVal] at hv; injection hv with hh; subst hh; rfl
      | vnone => cases tv <;> (simp only [rmVal] at hv; injection hv with hh; subst hh; rfl)
      | vbool b => cases tv <;> (simp only [rmVal] at hv; injection hv with hh; subst hh; rfl)
      | vint i => cases tv <;> (simp only [rmVal] at hv; injection hv with hh; subst hh; rfl)
      | vstr s => cases tv <;> (simp only [rmVal] at hv; injection hv with hh; subst hh; rfl)
      | vlist l => cases tv <;> (simp only [rmVal] at hv; injection hv with hh; subst hh; rfl)
    have pSelfVal : ∀ dv : Val, sizeOf dv < n + 1 → valNodupB dv = true →
        rmVal dv dv = Except.ok dv := by
      intro dv hdv hnd
      cases dv with
      | vdict d2 =>
        have hs2 : sizeOf d2 < n := by
          have h2 : sizeOf (Val.vdict d2) = 1 + sizeOf d2 := by simp
          omega
        rw [rmVal_dict_eq, map_ok_iff]
        exact ⟨d2, pSelfDerived d2 hs2 ((valNodup_dict d2) ▸ hnd), rfl⟩
      | vnone => rfl
      | vbool b => rfl
      | vint i => rfl
      | vstr s => rfl
      | vlist l => rfl
    refine ⟨?_, ?_, pVal, pSelfVal⟩
    · intro d hd t m hn h
      cases d with
      | nil =>
        rw [rmLoop] at h
        injection h with h
        subst h
        rfl
      | cons p rest =>
        obtain ⟨key, dv0⟩ := p
        have hsz : sizeOf dv0 < n + 1 ∧ sizeOf rest < n := by
          have h1 : sizeOf ((key, dv0) :: rest) = 1 + (1 + sizeOf key + sizeOf dv0) + sizeOf rest := by
            simp [Prod.mk.sizeOf_spec]
          omega
        obtain ⟨hk0, hvn, hrest⟩ := dictNodupB_cons hn
        rw [rmLoop] at h
        rw [bind_ok_iff] at h
        obtain ⟨mv0, hmv0, h⟩ := h
        rw [bind_ok_iff] at h
        obtain ⟨ms, hms, h⟩ := h
        rw [pure_ok_iff] at h
        subst h
        have hstep : rmVal dv0 mv0 = Except.ok mv0 := by
          cases hlk : lookup? t key with
          | none =>
            rw [hlk] at hmv0
            dsimp only at hmv0
            rw [pure_ok_iff] at hmv0
            subst hmv0
            exact pSelfVal dv0 hsz.1 hvn
          | some tv =>
            rw [hlk] at hmv0
            dsimp only at hmv0
            exact pVal dv0 hsz.1 hvn tv mv0 hmv0
        have htail : rmLoop rest ((key, mv0) :: ms) = Except.ok ms := by
          rw [rmLoop_skip rest key mv0 ms hk0]
          exact ih.1 rest hsz.2 t ms hrest hms
        rw [rmLoop]
        have hl : lookup? ((key, mv0) :: ms) key = some mv0 := by
          rw [lookup?, if_pos rfl]
        rw [hl]
        dsimp only
        rw [hstep]
        simp only [Bind.bind, Except.bind]
        rw [htail]
        rfl
    · intro d hd hn
      cases d with
      | nil => rfl
      | cons p rest =>
        obtain ⟨key, dv0⟩ := p
        have hsz : sizeOf dv0 < n + 1 ∧ sizeOf rest < n := by
          have h1 : sizeOf ((key, dv0) :: rest) = 1 + (1 + sizeOf key + sizeOf dv0) + sizeOf rest := by
            simp [Prod.mk.sizeOf_spec]
          omega
        obtain ⟨hk0, hvn, hrest⟩ := dictNodupB_cons hn
        rw [rmLoop]
        have hl : lookup? ((key, dv0) :: rest) key = some dv0 := by
          rw [lookup?, if_pos rfl]
        rw [hl]
        dsimp only
        rw [pSelfVal dv0 hsz.1 hvn]
        simp only [Bind.bind, Except.bind]
        rw [rmLoop_skip rest key dv0 rest hk0, ih.2.1 rest hsz.2 hrest]
        rfl

/-- Claim C6: recursive_merge is idempotent with respect to the default tree.
When the default tree has pairwise distinct keys at every level (as every
Python dict does) and the first merge succeeds, which is exactly the case
where the table tree only holds keys of the default tree wherever both sides
are mappings, merging the default tree with the result reproduces the result
unchanged. -/
theorem recursive_merge_idempotent (d t m : List (String × Val))
    (hnodup : dictNodupB d = true) (h : recursive_merge d t = Except.ok m) :
    recursive_merge d m = Except.ok m := by
  unfold recursive_merge at h ⊢
  rw [bind_ok_iff] at h
  obtain ⟨m1, hm1, h⟩ := h
  rw [bind_ok_iff] at h
  obtain ⟨u, hu, hp⟩ := h
  rw [pure_ok_iff] at hp
  subst hp
  rw [bind_ok_iff]
  refine ⟨m1, (c6Aux (sizeOf d + 1)).1 d (Nat.lt_succ_self _) t m1 hnodup hm1, ?_⟩
  rw [bind_ok_iff]
  refine ⟨(), extraKeyCheck_ok_of ?_, by rw [pure_ok_iff]⟩
  intro kv hkv
  have hmem : kv.1 ∈ m1.map Prod.fst := List.mem_map.mpr ⟨kv, hkv, rfl⟩
  rw [rmLoop_keys d t m1 hm1] at hmem
  exact lookup?_isSome_of_mem_keys d kv.1 hmem

/-- Claim C6 witness: a concrete idempotent merge with a nested mapping and a
scalar override. -/
theorem recursive_merge_idempotent_witness :
    recursive_merge [("a", Val.vint 1), ("b", Val.vdict [("c", Val.vint 2)])]
      [("a", Val.vint 5), ("b", Val.vdict [("c", Val.vint 2)])]
      = Except.ok [("a", Val.vint 5), ("b", Val.vdict [("c", Val.vint 2)])] :=
  recursive_merge_idempotent [("a", Val.vint 1), ("b", Val.vdict [("c", Val.vint 2)])]
    [("a", Val.vint 5)] [("a", Val.vint 5), ("b", Val.vdict [("c", Val.vint 2)])]
    (by decide) (by decide)

end ConfCore
